import Mathlib

/-!
Verification development for the sim900 repository (Go): a SIM900 GSM modem
driver built on a serial-port transport.  The development shallowly embeds

* the serial package's framer (`processSerialPort`), reader loop
  (`readSerialPort`) and command/response correlator (`WaitForRegexTimeout`),
* the sim900 package's `wait4response` wrapper, `SendSMS`, the unsolicited
  event listener installed by `Init`, and the SMS listener registry used by
  `WaitSMSText` / `WaitSMSFunc`,
* an executable regular-expression engine covering the construct subset the
  repository's patterns use (literals, character classes, `^`/`$` anchors,
  alternation, grouping, greedy `*`/`+`/`?`), with Go `FindStringSubmatch`
  submatch extraction (leftmost match, left-first alternation, greedy
  repetition, one entry per capture group).

Go strings are modelled as `List Char` (all protocol text is ASCII; where the
source manipulates raw bytes, `List Nat` is used and noted).
-/

set_option maxRecDepth 10000

namespace SIM

/-- Capture records: (group index, start position, end position). -/
abbrev Caps := List (Nat × Nat × Nat)

/-- Regular-expression abstract syntax, covering exactly the constructs used
by the repository's patterns.  `cls` is a character class given by its
membership predicate; `grp` is a capturing group (indices are assigned by
left-to-right traversal order, as Go numbers capturing parentheses). -/
inductive Regex where
  | eps : Regex
  | chr : Char → Regex
  | cls : (Char → Bool) → Regex
  | str : List Char → Regex
  | bol : Regex
  | eol : Regex
  | alt : Regex → Regex → Regex
  | seq : Regex → Regex → Regex
  | grp : Regex → Regex
  | star : Regex → Regex
  | plus : Regex → Regex

/-- Number of capturing groups, mirroring Go's `Regexp.NumSubexp`. -/
def groupCount : Regex → Nat
  | .alt a b => groupCount a + groupCount b
  | .seq a b => groupCount a + groupCount b
  | .grp a => groupCount a + 1
  | .star a => groupCount a
  | .plus a => groupCount a
  | _ => 0

/-- Greedy repetition loop for `star`: at each position try one more
(non-empty) iteration first, then the empty continuation.  `p i` lists the
parses of the starred expression at position `i` in priority order; the fuel
bounds the number of iterations (each iteration consumes at least one
character, so `length + 1` fuel is always enough). -/
def starLoop (p : Nat → List (Nat × Caps)) : Nat → Nat → List (Nat × Caps)
  | 0, i => [(i, [])]
  | f + 1, i =>
      (((p i).filter (fun jc => decide (i < jc.1))).flatMap
        (fun jc => (starLoop p f jc.1).map (fun kc => (kc.1, jc.2 ++ kc.2)))) ++ [(i, [])]

/-- All parses of `re` against `s` starting at position `i`, in the match
priority order of Go's regexp engine (left-first alternation, greedy
repetition).  Each parse is an end position together with the captures made;
`g` is the number of capture groups opened to the left of `re` in the whole
pattern, so the groups of `re` are numbered `g+1`, `g+2`, …. -/
def parses (s : List Char) : Regex → Nat → Nat → List (Nat × Caps)
  | .eps, _, i => [(i, [])]
  | .chr c, _, i =>
      match s.get? i with
      | some c2 => if c2 = c then [(i + 1, [])] else []
      | none => []
  | .cls p, _, i =>
      match s.get? i with
      | some c2 => if p c2 then [(i + 1, [])] else []
      | none => []
  | .str l, _, i => if (s.drop i).take l.length = l then [(i + l.length, [])] else []
  | .bol, _, i => if i = 0 then [(i, [])] else []
  | .eol, _, i => if i = s.length then [(i, [])] else []
  | .alt a b, g, i => parses s a g i ++ parses s b (g + groupCount a) i
  | .seq a b, g, i =>
      (parses s a g i).flatMap (fun jc =>
        (parses s b (g + groupCount a) jc.1).map (fun kc => (kc.1, jc.2 ++ kc.2)))
  | .grp a, g, i => (parses s a (g + 1) i).map (fun jc => (jc.1, (g + 1, i, jc.1) :: jc.2))
  | .star a, g, i => starLoop (fun j => parses s a g j) (s.length + 1) i
  | .plus a, g, i =>
      (parses s a g i).flatMap (fun jc =>
        (starLoop (fun j => parses s a g j) (s.length + 1) jc.1).map
          (fun kc => (kc.1, jc.2 ++ kc.2)))

/-- `x?` is `x | ε` (greedy: prefer the match). -/
def opt (r : Regex) : Regex := .alt r .eps

/-- Leftmost match: scan start positions left to right, and at the first
position with any parse take the highest-priority one.  Returns
(start, end, captures); mirrors Go's leftmost match with preferences. -/
def findFrom (re : Regex) (s : List Char) : Option (Nat × Nat × Caps) :=
  (List.range (s.length + 1)).findSome? (fun i =>
    match parses s re 0 i with
    | [] => none
    | jc :: _ => some (i, jc.1, jc.2))

/-- The substring of `s` from position `i` (inclusive) to `j` (exclusive). -/
def extract (s : List Char) (i j : Nat) : List Char := (s.drop i).take (j - i)

/-- Text captured by group `k` (last occurrence wins, as in Go; an unset
group yields the empty string, as Go's `FindStringSubmatch` yields `""`). -/
def capStr (s : List Char) (caps : Caps) (k : Nat) : List Char :=
  match caps.reverse.find? (fun t => t.1 == k) with
  | some t => extract s t.2.1 t.2.2
  | none => []

/-- Go's `FindStringSubmatch`: `none` when there is no match, otherwise the
full match followed by one entry per capture group. -/
def findSubmatch (re : Regex) (s : List Char) : Option (List (List Char)) :=
  (findFrom re s).map (fun m =>
    extract s m.1 m.2.1 :: (List.range (groupCount re)).map (fun k => capStr s m.2.2 (k + 1)))

/-- Go's `strings.Contains`. -/
def goContains (hay needle : List Char) : Bool :=
  (List.range (hay.length + 1)).any (fun o => (hay.drop o).take needle.length == needle)

/-- Word characters, Go's `\w` = `[0-9A-Za-z_]`; `\W` is the complement. -/
def isWordChar (c : Char) : Bool :=
  (('0' ≤ c && c ≤ '9') || ('a' ≤ c && c ≤ 'z') || ('A' ≤ c && c ≤ 'Z') || c = '_')

/-- `\W`: any non-word character. -/
def nonWord : Regex := .cls (fun c => !isWordChar c)

/-- `\d`. -/
def digitCls : Regex := .cls (fun c => '0' ≤ c && c ≤ '9')

/-- `\s`, Go: `[\t\n\f\r ]`. -/
def spaceCls : Regex := .cls (fun c => c = ' ' || c = '\t' || c = '\n' || c = '\x0c' || c = '\r')

/-- The characters of the generic error token `"ERROR"`. -/
def eW : List Char := ['E', 'R', 'R', 'O', 'R']

/-- The generic error detector appended by `wait4response`:
`(^|\W)ERROR($|\W)` (src/unnamed/part_000 line 101). -/
def errRe : Regex :=
  .seq (.grp (.alt .bol nonWord)) (.seq (.str eW) (.grp (.alt .eol nonWord)))

/-- `CMD_OK` = `(^|\W)OK($|\W)` (src/commands.go). -/
def okRe : Regex :=
  .seq (.grp (.alt .bol nonWord)) (.seq (.str ['O', 'K']) (.grp (.alt .eol nonWord)))

/-- `SendSMS` prompt-phase pattern `(> )|(\+CMS ERROR: \d+($|\W))`
(src/unnamed/part_000 line 170). -/
def promptRe : Regex :=
  .alt (.grp (.str ['>', ' ']))
    (.grp (.seq (.str "+CMS ERROR: ".data) (.seq (Regex.plus digitCls) (.grp (.alt .eol nonWord)))))

/-- `SendSMS` result-phase pattern
`(\+CMGS: (\d+)($|\W))|(\+CMS ERROR: \d+($|\W))` (src/unnamed/part_000 line 184). -/
def cmgsRe : Regex :=
  .alt
    (.grp (.seq (.str "+CMGS: ".data) (.seq (.grp (Regex.plus digitCls)) (.grp (.alt .eol nonWord)))))
    (.grp (.seq (.str "+CMS ERROR: ".data) (.seq (Regex.plus digitCls) (.grp (.alt .eol nonWord)))))

/-- `newCallPattern` = `(^|\W)RING(\r?\n)+\+CLIP: "(\d+)"($|\W)`
(src/unnamed/part_000 line 289). -/
def newCallRe : Regex :=
  .seq (.grp (.alt .bol nonWord))
    (.seq (.str ['R', 'I', 'N', 'G'])
      (.seq (Regex.plus (.grp (.seq (opt (.chr '\r')) (.chr '\n'))))
        (.seq (.str "+CLIP: \"".data)
          (.seq (.grp (Regex.plus digitCls)) (.seq (.str ['\"']) (.grp (.alt .eol nonWord)))))))

/-- `endCallPattern` = `\^CEND:\d+` (src/unnamed/part_000 line 290). -/
def endCallRe : Regex :=
  .seq (.chr '^') (.seq (.str "CEND:".data) (Regex.plus digitCls))

/-- `getCSCA` pattern `(\+CSCA:\s*"(\+\d+)"($|\W))` (src/unnamed/part_000 line 435). -/
def cscaRe : Regex :=
  .grp (.seq (.str "+CSCA:".data)
    (.seq (.star spaceCls)
      (.seq (.str ['\"'])
        (.seq (.grp (.seq (.chr '+') (Regex.plus digitCls)))
          (.seq (.str ['\"']) (.grp (.alt .eol nonWord)))))))

/-! ## Framer (`processSerialPort`, serial package)

The framer loop selects between a received byte (append to `screenBuff`,
restart the `rxDataTimeout` idle timer) and the timer firing (publish a
non-empty buffer as one frame and clear it), and breaks out of the loop as
soon as it observes `Opened != 1`, without touching the buffer.  An input
event sequence abstracts the timing: `byte b` is a byte arriving within the
idle window, `tick` is the idle timer firing (an inter-byte gap exceeding
`rxDataTimeout`, or the quiet period after the last byte), and `close` is
the `Opened` flag being cleared by `Close()`. -/

/-- One framer input event. -/
inductive RxEv where
  | byte (b : Nat)
  | tick
  | close

/-- The framer loop: returns the list of published frames and the final
accumulation buffer (left unpublished if the loop exits via `close` or the
event sequence ends). -/
def framerGo : List Nat → List RxEv → List (List Nat) × List Nat
  | buf, [] => ([], buf)
  | buf, .byte b :: rest => framerGo (buf ++ [b]) rest
  | buf, .tick :: rest =>
      if buf.isEmpty then framerGo buf rest
      else
        let r := framerGo [] rest
        (buf :: r.1, r.2)
  | buf, .close :: _ => ([], buf)

/-- Run the framer from an empty buffer. -/
def framerRun (evs : List RxEv) : List (List Nat) × List Nat := framerGo [] evs

/-! ## ByteReader (`readSerialPort`, serial package)

`readSerialPort` loops while `Opened == 1`; each iteration does
`n, _ := sp.Port.Read(rxBuff)` — the read error is discarded — and forwards
the `n` bytes read.  An iteration is modelled as the `Opened` value observed
at the top of the loop paired with the read's outcome. -/

/-- Outcome of one `sp.Port.Read` call: some bytes, or an error (the error
case delivers no bytes; the code ignores the error value). -/
inductive ReadRes where
  | ok (bs : List Nat)
  | err

/-- Bytes forwarded for one read outcome. -/
def readBytes : ReadRes → List Nat
  | .ok bs => bs
  | .err => []

/-- The reader loop over a schedule of iterations: terminates at the first
iteration that observes `Opened != 1`; otherwise forwards the read's bytes
and continues — also after an erroneous read. -/
def readLoop : List (Bool × ReadRes) → List Nat
  | [] => []
  | it :: rest => if it.1 then readBytes it.2 ++ readLoop rest else []

/-! ## Correlator (`WaitForRegexTimeout`, serial package; `wait4response`,
sim900 package)

`WaitForRegexTimeout` locks `RxMu`, sets `NeedRx`, and spawns a waiter
goroutine that accumulates frames from `rxData` into `lines`, matching the
compiled pattern against the accumulation; on a match it sends the submatches
and unlocks `RxMu`.  The main body then writes `cmd` (if non-empty), runs the
`inits` callbacks, and races the waiter against `time.After(timeout)`.

The model fixes a schedule: `frames` is the complete future rx traffic (the
frames delivered to `rxData`), and `writeOk` tells whether the `Println` of
`cmd` succeeds.  `rxFree` records whether `RxMu` is released given exactly
that traffic: the waiter goroutine unlocks if and only if some accumulated
prefix of the traffic matches — on the timeout, write-failure and
init-failure return paths nothing interrupts the goroutine (`timeExpired` is
set only on the timeout branch, after which the goroutine still blocks on
`<-sp.rxData` until one more frame arrives), so the lock stays held unless a
matching frame eventually shows up. -/

/-- Errors returned by the modelled operations. -/
inductive GoErr where
  | notOpened
  | writeFail
  | timeout
  | device (m : List Char)
  | smsTooLong
  | pduFail

/-- The waiter goroutine's scan: accumulate each frame into `lines` and
match the pattern against the accumulation; the first match's submatches are
the result. -/
def scanFrames (re : Regex) : List Char → List (List Char) → Option (List (List Char))
  | _, [] => none
  | lines, f :: rest =>
      match findSubmatch re (lines ++ f) with
      | some r => some r
      | none => scanFrames re (lines ++ f) rest

/-- Inputs of one `WaitForRegexTimeout` call: the `Opened` flag, whether the
`Println` of the command succeeds, and the frames subsequently delivered to
`rxData` (matching fails ⇒ the timeout fires). -/
structure RxScript where
  opened : Bool
  writeOk : Bool
  frames : List (List Char)

/-- One `inits` callback: the port writes it performs and its returned
error. -/
structure InitAct where
  wr : List (List Char)
  err : Option GoErr

/-- Run the `inits` loop: writes accumulate until the first callback that
returns an error, which aborts the loop. -/
def runInits : List InitAct → List (List Char) × Option GoErr
  | [] => ([], none)
  | op :: rest =>
      match op.err with
      | some e => (op.wr, some e)
      | none =>
          let r := runInits rest
          (op.wr ++ r.1, r.2)

/-- Result of a `WaitForRegexTimeout` / `wait4response` call: the returned
value, the bytes written to the port, and whether `RxMu` ends up released
given the scripted traffic. -/
structure WFRTRes where
  ret : Except GoErr (List (List Char))
  writes : List (List Char)
  rxFree : Bool

/-- The write performed by `Println(cmd)` when `cmd` is non-empty. -/
def cmdWrites (cmd : List Char) : List (List Char) :=
  if cmd.isEmpty then [] else [cmd ++ ['\r', '\n']]

/-- `WaitForRegexTimeout` (serial package, vendored source lines 276–325).
Path order as in the source: opened check; lock and spawn waiter; `Println`
of a non-empty `cmd` (returning its error); the `inits` loop (returning the
first error); then the select between the waiter and the timeout.  `rxFree`
is `(scanFrames …).isSome` on every path that took the lock: the waiter
unlocks exactly when some accumulated prefix of the traffic matches. -/
def waitForRegexTimeout (re : Regex) (cmd : List Char) (io : RxScript)
    (inits : List InitAct) : WFRTRes :=
  if io.opened = false then ⟨.error .notOpened, [], true⟩
  else if !cmd.isEmpty && !io.writeOk then
    ⟨.error .writeFail, [], (scanFrames re [] io.frames).isSome⟩
  else
    match (runInits inits).2 with
    | some e =>
        ⟨.error e, cmdWrites cmd ++ (runInits inits).1, (scanFrames re [] io.frames).isSome⟩
    | none =>
        match scanFrames re [] io.frames with
        | some r => ⟨.ok r, cmdWrites cmd ++ (runInits inits).1, true⟩
        | none => ⟨.error .timeout, cmdWrites cmd ++ (runInits inits).1, false⟩

/-- The error check `wait4response` performs on the correlator's result: a
response whose full match (`response[0]`) contains `"ERROR"` becomes an
error carrying that raw matched text (the source prefixes it with
`"Error: "`). -/
def w4rPost (w : WFRTRes) : WFRTRes :=
  match w.ret with
  | .error e => ⟨.error e, w.writes, w.rxFree⟩
  | .ok resp =>
      if goContains (resp.headD []) eW then
        ⟨.error (.device (resp.headD [])), w.writes, w.rxFree⟩
      else ⟨.ok resp, w.writes, w.rxFree⟩

/-- `wait4response` (src/unnamed/part_000 lines 99–112): appends the generic
error alternative to the expected pattern, calls `WaitForRegexTimeout`, and
applies the `"ERROR"` check to the response. -/
def wait4response (expected : Regex) (cmd : List Char) (io : RxScript)
    (inits : List InitAct) : WFRTRes :=
  w4rPost (waitForRegexTimeout (.alt expected errRe) cmd io inits)

/-! ## EventRouter: the ring/call-end logic of the `Init` output listener
(src/unnamed/part_000 lines 339–352)

The listener installed by `Init` first extracts `+CMT` message notifications
(that section never touches `isRinging`), then updates the ringing flag:

```
if isRinging && endCallPattern.MatchString(body) { isRinging.Store(false) }
if isRinging == false {
  match := newCallPattern.FindStringSubmatch(body)
  if len(match) > 0 { isRinging.Store(true); go s.OnNewCall(match[3]) }
}
```

`routeFrame` is that tail: it returns the new flag value and the list of
phone numbers dispatched to `OnNewCall` (the code has no call-end callback at
all, so call-end dispatches cannot occur and are not represented). -/

/-- Process one frame through the ring/call-end logic. -/
def routeFrame (ringing : Bool) (body : List Char) : Bool × List (List Char) :=
  let r1 := if ringing && (findFrom endCallRe body).isSome then false else ringing
  if r1 = false then
    match findSubmatch newCallRe body with
    | some m => (true, [m.getD 3 []])
    | none => (r1, [])
  else (r1, [])

/-- Process a sequence of frames, accumulating `OnNewCall` dispatches. -/
def routeFrames (ringing : Bool) : List (List Char) → Bool × List (List Char)
  | [] => (ringing, [])
  | f :: rest =>
      let s1 := routeFrame ringing f
      let s2 := routeFrames s1.1 rest
      (s2.1, s1.2 ++ s2.2)

/-! ## SMS listener registry and the wait operations
(src/unnamed/part_000 lines 194–207, 238–279)

`mapSMSEvents` maps ids to callbacks; `AddSMSListener` allocates the next id,
`DelSMSListener` removes one.  The `Init` listener dispatches every decoded
incoming message to all registered callbacks; a waiting call's own callback
sends into that call's result channel when its filter matches.  A callback is
modelled as `SmsMsg → Option α`: `some v` means it sends `v` into its result
channel.

`WaitSMSText` uses `defer s.DelSMSListener(s.AddSMSListener(cb))`: the `Add`
argument is evaluated at entry and the `Del` runs at return, so the listener
is registered for the whole wait.  `WaitSMSFunc` has no `defer` — it removes
the listener immediately after adding it.  Both claims are scoped to calls
with no `inits` (the `inits` loop returns unconditionally on its first
iteration, a separate issue not modelled here). -/

/-- An incoming, already-decoded SMS. -/
structure SmsMsg where
  addr : List Char
  text : List Char

/-- The listener registry: id/callback pairs. -/
abbrev SmsListeners (α : Type) : Type := List (Nat × (SmsMsg → Option α))

/-- `AddSMSListener`: allocate the next id and register the callback. -/
def addSMSListener (next : Nat) (reg : SmsListeners α) (fn : SmsMsg → Option α) :
    Nat × SmsListeners α :=
  (next + 1, reg ++ [(next + 1, fn)])

/-- `DelSMSListener`: remove the callback with the given id. -/
def delSMSListener (reg : SmsListeners α) (id : Nat) : SmsListeners α :=
  reg.filter (fun e => e.1 != id)

/-- Dispatch one message to every registered callback; the waiting select
receives the first value produced. -/
def dispatchMsg (reg : SmsListeners α) (m : SmsMsg) : Option α :=
  reg.findSome? (fun e => e.2 m)

/-- The select loop: the first message whose dispatch produces a value wins;
if none does before the script ends, the timeout fires. -/
def awaitFirst (reg : SmsListeners α) (msgs : List SmsMsg) : Option α :=
  msgs.findSome? (dispatchMsg reg)

/-- Result of a wait call: the returned value, the registry in force while
the select blocked, and the registry after the call returned. -/
structure WaitRun (α : Type) where
  ret : Except GoErr α
  regDuring : SmsListeners α
  regAfter : SmsListeners α

/-- `WaitSMSText` (src/unnamed/part_000 lines 238–257) with no `inits`:
register a callback filtering on the phone number (`defer` removes it at
return), then race the result channel against the timeout. -/
def waitSMSText (next : Nat) (reg : SmsListeners (List Char)) (phone : List Char)
    (msgs : List SmsMsg) : WaitRun (List Char) :=
  let p := addSMSListener next reg (fun m => if m.addr = phone then some m.text else none)
  let ret : Except GoErr (List Char) :=
    match awaitFirst p.2 msgs with
    | some t => .ok t
    | none => .error .timeout
  ⟨ret, p.2, delSMSListener p.2 p.1⟩

/-- `WaitSMSFunc` (src/unnamed/part_000 lines 260–279) with no `inits`: the
source has `s.DelSMSListener(s.AddSMSListener(cb))` with no `defer`, so the
callback is removed immediately and the select runs with it already gone. -/
def waitSMSFunc (next : Nat) (reg : SmsListeners Unit) (match_ : SmsMsg → Bool)
    (msgs : List SmsMsg) : WaitRun Unit :=
  let p := addSMSListener next reg (fun m => if match_ m then some () else none)
  let reg2 := delSMSListener p.2 p.1
  let ret : Except GoErr Unit :=
    match awaitFirst reg2 msgs with
    | some _ => .ok ()
    | none => .error .timeout
  ⟨ret, reg2, reg2⟩

/-! ## `SendSMS` (src/unnamed/part_000 lines 127–191)

`isASCII` iterates over the bytes of the Go string; texts are therefore
modelled as byte lists (`List Nat`), on which Go's `len` is the list length.
The PDU encoder `msg.PDU()` is the external codec collaborator
(github.com/xlab/at); the model takes its outcome as an input, along with
the outcomes of the port writes and the frames answering each phase. -/

/-- `isASCII` (src/unnamed/part_000 lines 127–134): true iff no byte exceeds
`unicode.MaxASCII` (127). -/
def isASCII (bs : List Nat) : Bool := bs.all (fun b => b ≤ 127)

/-- SMS text encodings used by `SendSMS`. -/
inductive SmsEncoding where
  | gsm7Bit
  | ucs2

/-- The fields of the `sms.Message` literal that `SendSMS` builds which vary
per call (the remaining fields — Submit type, relative validity period,
reject-duplicates, status-report-request — are constants). -/
structure SmsSubmitMsg where
  text : List Nat
  address : List Nat
  encoding : SmsEncoding
  serviceCenterAddress : List Nat

/-- `SendSMS` lines 146–163: the message starts with `Gsm7Bit` encoding, the
service-center address is set when `s.CSCA` is non-empty, and the encoding is
switched to `UCS2` when the text is not ASCII. -/
def buildSMSMsg (csca address text : List Nat) : SmsSubmitMsg :=
  let m0 : SmsSubmitMsg := ⟨text, address, .gsm7Bit, []⟩
  let m1 := if csca.isEmpty then m0 else { m0 with serviceCenterAddress := csca }
  if !(isASCII text) then { m1 with encoding := .ucs2 } else m1

/-- Scripted outcomes of the external collaborators during one `SendSMS`
call: the PDU codec result, the success of each direct `Print`, and the
frames answering each `wait4response` phase. -/
structure SendScript where
  pduRes : Except GoErr (Nat × List Nat)
  print1Ok : Bool
  frames1 : List (List Char)
  printOctetsOk : Bool
  printCtrlZOk : Bool
  frames2 : List (List Char)

/-- Decimal digits of `n` (for `fmt.Sprintf("AT+CMGS=%d\r", n)`). -/
def natChars (n : Nat) : List Char := (Nat.repr n).data

/-- One uppercase hex digit. -/
def hexDigitU (n : Nat) : Char := if n < 10 then Char.ofNat (48 + n) else Char.ofNat (55 + n)

/-- `fmt.Sprintf("%02X", octets)`: two uppercase hex digits per byte. -/
def hexUpper (octets : List Nat) : List Char :=
  octets.flatMap (fun b => [hexDigitU (b / 16 % 16), hexDigitU (b % 16)])

/-- `SendSMS` (src/unnamed/part_000 lines 137–191).  Returns the result and
the complete list of port writes, in order.  The length guard runs before
the lock is taken and before any port interaction; phase 1 sends
`AT+CMGS=<n>\r` through the `inits` callback of `wait4response` with an
empty `cmd`; on success the hex octets are printed, and phase 2 sends the
Ctrl-Z terminator the same way, returning `response[2]` (the message id). -/
def sendSMS (script : SendScript) (csca address text : List Nat) :
    Except GoErr (List Char) × List (List Char) :=
  if 160 < text.length then (.error .smsTooLong, [])
  else
    let _msg := buildSMSMsg csca address text
    match script.pduRes with
    | .error e => (.error e, [])
    | .ok no =>
        let init1 : InitAct :=
          if script.print1Ok then ⟨["AT+CMGS=".data ++ natChars no.1 ++ ['\r']], none⟩
          else ⟨[], some .writeFail⟩
        let w1 := wait4response promptRe [] ⟨true, true, script.frames1⟩ [init1]
        match w1.ret with
        | .error e => (.error e, w1.writes)
        | .ok _ =>
            if !script.printOctetsOk then (.error .writeFail, w1.writes)
            else
              let octW := hexUpper no.2
              let init2 : InitAct :=
                if script.printCtrlZOk then ⟨[['\x1a']], none⟩ else ⟨[], some .writeFail⟩
              let w2 := wait4response cmgsRe [] ⟨true, true, script.frames2⟩ [init2]
              match w2.ret with
              | .error e => (.error e, w1.writes ++ [octW] ++ w2.writes)
              | .ok resp => (.ok (resp.getD 2 []), w1.writes ++ [octW] ++ w2.writes)

/-! ## Framer theorems -/

/-- Feeding bytes with no intervening timer fire just accumulates them. -/
theorem framerGo_bytes (bs : List Nat) (buf : List Nat) (rest : List RxEv) :
    framerGo buf (bs.map RxEv.byte ++ rest) = framerGo (buf ++ bs) rest := by
  induction bs generalizing buf with
  | nil => simp [framerGo]
  | cons b bs ih => simp [framerGo, ih]

/-- C3: a byte sequence whose inter-byte gaps all stay below the idle
duration, followed by the idle timer firing, is published as exactly one
frame containing the full concatenation, with the buffer cleared; more
generally, a sequence of non-empty byte bursts separated by idle gaps is
published as exactly one frame per burst, split at the gaps — so one gap
yields at least two frames. -/
theorem framer_coalescing (chunks : List (List Nat)) (h : ∀ c ∈ chunks, c ≠ []) :
    framerRun (chunks.flatMap (fun c => c.map RxEv.byte ++ [RxEv.tick])) = (chunks, []) := by
  unfold framerRun
  induction chunks with
  | nil => simp [framerGo]
  | cons c cs ih =>
      have hc : ¬c.isEmpty := by
        simp [List.isEmpty_iff]
        exact h c (by simp)
      have hcs := ih (fun x hx => h x (by simp [hx]))
      simp only [List.flatMap_cons, List.append_assoc]
      rw [framerGo_bytes]
      simp only [List.nil_append, List.singleton_append, framerGo, hc]
      simp [hcs]

/-- Witness for C3: two bursts `[1, 2]` and `[3]` separated by an idle gap
produce exactly the two frames `[1, 2]` and `[3]`. -/
theorem framer_coalescing_witness :
    (∀ c ∈ ([[1, 2], [3]] : List (List Nat)), c ≠ []) ∧
      framerRun (([[1, 2], [3]] : List (List Nat)).flatMap
        (fun c => c.map RxEv.byte ++ [RxEv.tick])) = ([[1, 2], [3]], []) :=
  ⟨by decide, framer_coalescing [[1, 2], [3]] (by decide)⟩

/-- C7 counterexample: when the stream closes (`Opened` cleared) with byte
65 still buffered, the framer terminates publishing no frame at all — the
non-empty buffer is not flushed. -/
theorem framer_close_no_flush_counterexample :
    ¬([65] ∈ (framerRun [RxEv.byte 65, RxEv.close]).1) ∧
      (framerRun [RxEv.byte 65, RxEv.close]).2 = [65] := by
  constructor
  · simp [framerRun, framerGo]
  · rfl

/-- C7 amended: if the stream closes while the accumulation buffer is
non-empty, the framer terminates discarding the buffer — it publishes
nothing for it. -/
theorem framer_close_discards_buffer (bs : List Nat) :
    framerRun (bs.map RxEv.byte ++ [RxEv.close]) = ([], bs) := by
  unfold framerRun
  rw [framerGo_bytes]
  simp [framerGo]

/-! ## ByteReader theorems -/

/-- C8 counterexample: after a read that returns an error (while `Opened`
stays set), the loop performs a further read and forwards its bytes — it
does not terminate on the read error. -/
theorem readLoop_continues_after_error_counterexample :
    readLoop [(true, ReadRes.err), (true, ReadRes.ok [65])] = [65] ∧
      readLoop [(true, ReadRes.err), (true, ReadRes.ok [65])] ≠ [] := by
  constructor
  · rfl
  · simp [readLoop, readBytes]

/-- C8 amended: the reader loop terminates exactly at the first iteration
that observes `Opened != 1`; read errors (which may occur anywhere in the
schedule) are ignored and every prior iteration's bytes are forwarded. -/
theorem readLoop_stops_only_on_closed (pre : List ReadRes) (r : ReadRes)
    (post : List (Bool × ReadRes)) :
    readLoop (pre.map (fun x => (true, x)) ++ (false, r) :: post) =
      pre.flatMap readBytes := by
  induction pre with
  | nil => simp [readLoop]
  | cons a as ih => simp [readLoop, ih]

/-! ## Correlator lock theorems -/

/-- C2: the exclusive command lock `RxMu` is *not* released on every exit
path.  On the write-failure path (`Println` of the command fails) and on the
timeout path, the call returns while the waiter goroutine still blocks on
`<-sp.rxData` holding `RxMu`; with no further rx traffic the lock stays held
forever, so a subsequent command cannot acquire it.  (On the success path
the waiter does release the lock.) -/
theorem correlator_lock_leak :
    ((wait4response okRe "AT".data ⟨true, false, []⟩ []).ret = .error .writeFail ∧
      (wait4response okRe "AT".data ⟨true, false, []⟩ []).rxFree = false) ∧
    ((wait4response okRe "AT".data ⟨true, true, []⟩ []).ret = .error .timeout ∧
      (wait4response okRe "AT".data ⟨true, true, []⟩ []).rxFree = false) ∧
    (wait4response okRe "AT".data ⟨true, true, ["\r\nOK\r\n".data]⟩ []).rxFree = true :=
  ⟨⟨rfl, rfl⟩, ⟨rfl, rfl⟩, rfl⟩

/-! ## SMS wait theorems -/

/-- C6: `WaitSMSText` keeps its subscription registered for the whole wait
(a matching message completes the call) and removes it at exit; but
`WaitSMSFunc` removes its subscription immediately at entry (the source
lacks the `defer`), so its registry is already empty while the select
blocks and a matching message delivered before the timeout does *not*
complete the call — it times out. -/
theorem waitSMSFunc_drops_subscription :
    ((waitSMSText 0 [] ['8', '4'] [⟨['8', '4'], ['h', 'i']⟩]).ret = .ok ['h', 'i'] ∧
      (waitSMSText 0 [] ['8', '4'] [⟨['8', '4'], ['h', 'i']⟩]).regAfter = []) ∧
    ((waitSMSFunc 0 [] (fun _ => true) [⟨['8', '4'], ['h', 'i']⟩]).ret = .error .timeout ∧
      (waitSMSFunc 0 [] (fun _ => true) [⟨['8', '4'], ['h', 'i']⟩]).regDuring = []) :=
  ⟨⟨rfl, rfl⟩, ⟨rfl, rfl⟩⟩

/-! ## SendSMS theorems -/

/-- C9: the message handed to the PDU codec is encoded `Gsm7Bit` exactly
when every byte of the text is at most 127 (`unicode.MaxASCII`), and `UCS2`
otherwise. -/
theorem sendSMS_encoding_selection (csca address text : List Nat) :
    ((buildSMSMsg csca address text).encoding = .gsm7Bit ↔
      text.all (fun b => b ≤ 127) = true) ∧
    ((buildSMSMsg csca address text).encoding = .ucs2 ↔
      text.all (fun b => b ≤ 127) = false) := by
  unfold buildSMSMsg isASCII
  rcases h : text.all (fun b => b ≤ 127) <;> rcases hc : csca.isEmpty <;> simp [h, hc]

/-- C5: a text longer than 160 bytes (Go's `len`; a text of more than 160
characters is in particular longer than 160 bytes) makes `SendSMS` return
the length error before any port interaction: no bytes are written. -/
theorem sendSMS_length_guard (script : SendScript) (csca address text : List Nat)
    (h : 160 < text.length) :
    sendSMS script csca address text = (.error .smsTooLong, []) := by
  unfold sendSMS
  rw [if_pos h]

/-- Witness for C5: a 161-byte text is rejected with no writes. -/
theorem sendSMS_length_guard_witness :
    160 < (List.replicate 161 97).length ∧
      sendSMS ⟨.ok (0, []), true, [], true, true, []⟩ [] [] (List.replicate 161 97) =
        (.error .smsTooLong, []) :=
  ⟨by simp, sendSMS_length_guard ⟨.ok (0, []), true, [], true, true, []⟩ [] []
    (List.replicate 161 97) (by simp)⟩

/-! ## EventRouter theorems -/

/-- C4: the ringing flag's transition invariant.  (1) While the flag is set,
a frame with no call-end match leaves it set and dispatches nothing — a ring
match in it is ignored.  (2) While the flag is clear, a frame with no ring
match leaves it clear and dispatches nothing — in particular a call-end
notification with no preceding ring produces no dispatch at all (the code
has no call-end callback).  (3) Hence two consecutive ring frames with no
intervening call-end produce exactly one `OnNewCall` dispatch. -/
theorem ringing_flag_invariant :
    (∀ body, (findFrom endCallRe body).isSome = false →
      routeFrame true body = (true, [])) ∧
    (∀ body, findSubmatch newCallRe body = none →
      routeFrame false body = (false, [])) ∧
    (∀ f1 f2 m1, (findFrom endCallRe f1).isSome = false →
      (findFrom endCallRe f2).isSome = false →
      findSubmatch newCallRe f1 = some m1 →
      routeFrames false [f1, f2] = (true, [m1.getD 3 []])) := by
  refine ⟨fun body h => ?_, fun body h => ?_, fun f1 f2 m1 h1 h2 hm => ?_⟩
  · simp [routeFrame, h]
  · simp [routeFrame, h]
  · simp [routeFrames, routeFrame, h1, h2, hm]

/-- Witness for C4: a concrete `RING` + `+CLIP` frame processed twice from
the non-ringing state dispatches `OnNewCall` exactly once, with the calling
number `84901234` (capture group 3). -/
theorem ringing_flag_invariant_witness :
    ((findFrom endCallRe "RING\r\n+CLIP: \"84901234\"\r\n".data).isSome = false ∧
      findSubmatch newCallRe "RING\r\n+CLIP: \"84901234\"\r\n".data =
        some ["RING\r\n+CLIP: \"84901234\"\r".data, [], ['\r', '\n'],
          "84901234".data, ['\r']]) ∧
      routeFrames false ["RING\r\n+CLIP: \"84901234\"\r\n".data,
          "RING\r\n+CLIP: \"84901234\"\r\n".data] =
        (true, ["84901234".data]) := by
  refine ⟨⟨by decide, by decide⟩, ?_⟩
  have := ringing_flag_invariant.2.2 "RING\r\n+CLIP: \"84901234\"\r\n".data
    "RING\r\n+CLIP: \"84901234\"\r\n".data
    ["RING\r\n+CLIP: \"84901234\"\r".data, [], ['\r', '\n'], "84901234".data, ['\r']]
    (by decide) (by decide) (by decide)
  simpa using this

/-! ## Submatch shape theorems -/

/-- A successful scan's result is a `findSubmatch` result for some
accumulated text. -/
theorem scanFrames_some {re : Regex} :
    ∀ {lines frames r}, scanFrames re lines frames = some r →
      ∃ s, findSubmatch re s = some r := by
  intro lines frames
  induction frames generalizing lines with
  | nil => intro r h; simp [scanFrames] at h
  | cons f rest ih =>
      intro r h
      unfold scanFrames at h
      rcases hf : findSubmatch re (lines ++ f) with _ | v
      · rw [hf] at h
        exact ih h
      · rw [hf] at h
        cases h
        exact ⟨lines ++ f, hf⟩

/-- `FindStringSubmatch` always returns one entry per capture group plus the
full match. -/
theorem findSubmatch_length {re : Regex} {s : List Char} {r : List (List Char)}
    (h : findSubmatch re s = some r) : r.length = 1 + groupCount re := by
  unfold findSubmatch at h
  rcases hf : findFrom re s with _ | m
  · rw [hf] at h; cases h
  · rw [hf] at h
    simp only [Option.map_some'] at h
    cases h
    simp [Nat.add_comm]

/-- A successful `WaitForRegexTimeout` return comes from the waiter's scan. -/
theorem waitForRegexTimeout_ok {re : Regex} {cmd : List Char} {io : RxScript}
    {inits : List InitAct} {r : List (List Char)}
    (h : (waitForRegexTimeout re cmd io inits).ret = .ok r) :
    scanFrames re [] io.frames = some r := by
  unfold waitForRegexTimeout at h
  split at h
  · cases h
  · split at h
    · cases h
    · split at h
      · cases h
      · split at h
        · next heq =>
            cases h
            exact heq
        · cases h

/-- C10: whenever `wait4response` succeeds, the returned submatch slice has
length one plus the number of capture groups of the combined pattern — that
is `3 + groupCount expected`, since the appended error detector contributes
two groups — so it has at least 3 entries and the façade's `response[2]`
accesses are in bounds. -/
theorem wait4response_submatch_bounds (e : Regex) (cmd : List Char) (io : RxScript)
    (inits : List InitAct) (res : List (List Char))
    (h : (wait4response e cmd io inits).ret = .ok res) :
    res.length = 1 + groupCount (Regex.alt e errRe) ∧ 2 < res.length := by
  unfold wait4response w4rPost at h
  split at h
  · cases h
  · next resp heq =>
      split at h
      · cases h
      · cases h
        obtain ⟨t, ht⟩ := scanFrames_some (waitForRegexTimeout_ok heq)
        have hl := findSubmatch_length ht
        refine ⟨hl, ?_⟩
        have hge : groupCount (Regex.alt e errRe) = groupCount e + 2 := rfl
        omega

/-- Witness for C10: a concrete successful `wait4response` call with the
`OK` pattern returns a 5-entry slice (1 + 2 expected groups + 2 error
groups). -/
theorem wait4response_submatch_bounds_witness :
    (wait4response okRe "AT".data ⟨true, true, ["\r\nOK\r\n".data]⟩ []).ret =
        .ok [['\n', 'O', 'K', '\r'], ['\n'], ['\r'], [], []] ∧
      2 < ([['\n', 'O', 'K', '\r'], ['\n'], ['\r'], [], []] : List (List Char)).length :=
  ⟨rfl, (wait4response_submatch_bounds okRe "AT".data ⟨true, true, ["\r\nOK\r\n".data]⟩ []
    [['\n', 'O', 'K', '\r'], ['\n'], ['\r'], [], []] rfl).2⟩

/-! ## Error precedence: base-shift machinery

The combined pattern `expected|(^|\W)ERROR($|\W)` numbers the error
detector's two groups after `expected`'s groups.  Matching behaviour is
independent of that numbering offset: `parses` at base `g + d` is `parses`
at base `g` with every capture index shifted by `d`. -/

/-- Shift every capture index by `d`. -/
def shiftCaps (d : Nat) (c : Caps) : Caps := c.map (fun t => (t.1 + d, t.2))

/-- Shift of one parse result. -/
def shiftP (d : Nat) (jc : Nat × Caps) : Nat × Caps := (jc.1, shiftCaps d jc.2)

theorem shiftCaps_append (d : Nat) (a b : Caps) :
    shiftCaps d (a ++ b) = shiftCaps d a ++ shiftCaps d b :=
  List.map_append _ a b

/-- `flatMap`/`map` push-through shared by the repetition and sequencing
cases of `parses_shift`. -/
theorem map_shift_flatMap (d : Nat) (l : List (Nat × Caps)) (P : Nat → List (Nat × Caps)) :
    ((l.map (shiftP d)).flatMap fun jc =>
        ((P jc.1).map (shiftP d)).map fun kc => (kc.1, jc.2 ++ kc.2)) =
      (l.flatMap fun jc => (P jc.1).map fun kc => (kc.1, jc.2 ++ kc.2)).map (shiftP d) := by
  induction l with
  | nil => rfl
  | cons a l ih =>
      simp only [List.map_cons, List.flatMap_cons, List.map_append, ih]
      congr 1
      rw [List.map_map, List.map_map]
      apply List.map_congr_left
      intro kc _
      simp [Function.comp, shiftP, shiftCaps_append]

theorem starLoop_shift {p q : Nat → List (Nat × Caps)} {d : Nat}
    (hpq : ∀ i, q i = (p i).map (shiftP d)) (f : Nat) :
    ∀ i, starLoop q f i = (starLoop p f i).map (shiftP d) := by
  induction f with
  | zero => intro i; simp [starLoop, shiftP, shiftCaps]
  | succ f ih =>
      intro i
      simp only [starLoop, hpq, ih]
      rw [List.filter_map]
      have hcomp : ((fun jc : Nat × Caps => decide (i < jc.1)) ∘ shiftP d) =
          fun jc : Nat × Caps => decide (i < jc.1) := by
        funext jc; rfl
      rw [hcomp, map_shift_flatMap, List.map_append]
      rfl

/-- Capture-index independence: `parses` at base `g + d` is `parses` at base
`g` with every capture index shifted by `d`. -/
theorem parses_shift (s : List Char) (re : Regex) (d : Nat) :
    ∀ g i, parses s re (g + d) i = (parses s re g i).map (shiftP d) := by
  induction re with
  | eps => intro g i; simp [parses, shiftP, shiftCaps]
  | chr c =>
      intro g i
      simp only [parses]
      cases s.get? i with
      | none => simp
      | some c2 => by_cases hc : c2 = c <;> simp [hc, shiftP, shiftCaps]
  | cls p =>
      intro g i
      simp only [parses]
      cases s.get? i with
      | none => simp
      | some c2 => by_cases hc : p c2 <;> simp [hc, shiftP, shiftCaps]
  | str l =>
      intro g i
      simp only [parses]
      split <;> simp [shiftP, shiftCaps]
  | bol =>
      intro g i
      simp only [parses]
      split <;> simp [shiftP, shiftCaps]
  | eol =>
      intro g i
      simp only [parses]
      split <;> simp [shiftP, shiftCaps]
  | alt a b iha ihb =>
      intro g i
      simp only [parses]
      rw [iha, show g + d + groupCount a = g + groupCount a + d from by omega, ihb,
        ← List.map_append]
  | seq a b iha ihb =>
      intro g i
      have hb : ∀ j, parses s b (g + d + groupCount a) j =
          (parses s b (g + groupCount a) j).map (shiftP d) := by
        intro j
        rw [show g + d + groupCount a = g + groupCount a + d from by omega]
        exact ihb (g + groupCount a) j
      simp only [parses, iha, hb]
      exact map_shift_flatMap d _ _
  | grp a iha =>
      intro g i
      have ha : parses s a (g + d + 1) i = (parses s a (g + 1) i).map (shiftP d) := by
        rw [show g + d + 1 = g + 1 + d from by omega]
        exact iha (g + 1) i
      simp only [parses, ha]
      rw [List.map_map, List.map_map]
      apply List.map_congr_left
      intro jc _
      simp [Function.comp, shiftP, shiftCaps]
      omega
  | star a iha =>
      intro g i
      simp only [parses]
      exact starLoop_shift (fun j => iha g j) _ i
  | plus a iha =>
      intro g i
      have hst : ∀ j, starLoop (fun x => (parses s a g x).map (shiftP d)) (s.length + 1) j =
          (starLoop (fun x => parses s a g x) (s.length + 1) j).map (shiftP d) :=
        starLoop_shift (fun j => rfl) _
      simp only [parses, iha, hst]
      exact map_shift_flatMap d _ _

/-- A failed unanchored search means no start position has a parse. -/
theorem findFrom_eq_none {re : Regex} {s : List Char} (h : findFrom re s = none) :
    ∀ i, i < s.length + 1 → parses s re 0 i = [] := by
  intro i hi
  unfold findFrom at h
  rw [List.findSome?_eq_none_iff] at h
  have hh := h i (List.mem_range.mpr hi)
  rcases hp : parses s re 0 i with _ | ⟨jc, tl⟩
  · rfl
  · rw [hp] at hh
    cases hh

/-- Destructor for parses of a sequence. -/
theorem mem_parses_seq {s : List Char} {a b : Regex} {g i : Nat} {jc : Nat × Caps}
    (h : jc ∈ parses s (.seq a b) g i) :
    ∃ u v, u ∈ parses s a g i ∧ v ∈ parses s b (g + groupCount a) u.1 ∧
      jc = (v.1, u.2 ++ v.2) := by
  simp only [parses, List.mem_flatMap, List.mem_map] at h
  obtain ⟨u, hu, v, hv, he⟩ := h
  exact ⟨u, v, hu, hv, he.symm⟩

/-- A parse of the `(^|\W)` boundary group starts where it begins: it only
moves forward. -/
theorem mem_bound_start {s : List Char} {g i : Nat} {u : Nat × Caps}
    (h : u ∈ parses s (Regex.grp (Regex.alt Regex.bol nonWord)) g i) : i ≤ u.1 := by
  simp only [parses, nonWord, List.mem_map, List.mem_append] at h
  obtain ⟨u', hu', rfl⟩ := h
  show i ≤ u'.1
  rcases hu' with hb | hc
  · split at hb
    · simp at hb
      subst hb
      omega
    · cases hb
  · rcases hg : s.get? i with _ | c
    · rw [hg] at hc
      cases hc
    · rw [hg] at hc
      simp at hc
      obtain ⟨-, rfl⟩ := hc
      omega

/-- A parse of the `($|\W)` boundary group only moves forward. -/
theorem mem_bound_end {s : List Char} {g k : Nat} {u : Nat × Caps}
    (h : u ∈ parses s (Regex.grp (Regex.alt Regex.eol nonWord)) g k) : k ≤ u.1 := by
  simp only [parses, nonWord, List.mem_map, List.mem_append] at h
  obtain ⟨u', hu', rfl⟩ := h
  show k ≤ u'.1
  rcases hu' with hb | hc
  · split at hb
    · simp at hb
      subst hb
      omega
    · cases hb
  · rcases hg : s.get? k with _ | c
    · rw [hg] at hc
      cases hc
    · rw [hg] at hc
      simp at hc
      obtain ⟨-, rfl⟩ := hc
      omega

/-- A parse of `ERROR($|\W)` from position `k` requires the five characters
`ERROR` at `k` and ends no earlier than `k + 5`. -/
theorem mem_errStr {s : List Char} {g k : Nat} {v : Nat × Caps}
    (h : v ∈ parses s (Regex.seq (Regex.str eW)
      (Regex.grp (Regex.alt Regex.eol nonWord))) g k) :
    (s.drop k).take 5 = eW ∧ k + 5 ≤ v.1 := by
  obtain ⟨w, x, hw, hx, hv⟩ := mem_parses_seq h
  simp only [parses] at hw
  split at hw
  · next hcond =>
      simp at hw
      subst hw
      have hx1 := mem_bound_end hx
      have h5 : eW.length = 5 := rfl
      refine ⟨hcond, ?_⟩
      rw [hv]
      show k + 5 ≤ x.1
      simp only [] at hx1
      omega
  · cases hw

/-- Every parse of the generic error detector spans an occurrence of the
five characters `ERROR` inside the matched region. -/
theorem errRe_parse_span {s : List Char} {g i : Nat} {jc : Nat × Caps}
    (h : jc ∈ parses s errRe g i) :
    ∃ k, i ≤ k ∧ k + 5 ≤ jc.1 ∧ (s.drop k).take 5 = eW := by
  unfold errRe at h
  obtain ⟨u, v, hu, hv, hjc⟩ := mem_parses_seq h
  have h1 := mem_bound_start hu
  have h2 := mem_errStr hv
  refine ⟨u.1, h1, ?_, h2.1⟩
  rw [hjc]
  show u.1 + 5 ≤ v.1
  exact h2.2

/-- `strings.Contains` holds for any substring window that covers an
occurrence of the needle. -/
theorem goContains_of_span {s : List Char} {i k j : Nat}
    (hik : i ≤ k) (hkj : k + 5 ≤ j) (hs : (s.drop k).take 5 = eW) :
    goContains (extract s i j) eW = true := by
  have hlen5 : (5 : Nat) ≤ s.length - k := by
    have := congrArg List.length hs
    simp [eW] at this
    omega
  rw [goContains, List.any_eq_true]
  refine ⟨k - i, List.mem_range.mpr ?_, ?_⟩
  · have : (extract s i j).length = min (j - i) (s.length - i) := by
      simp [extract]
    omega
  · have hdt : (extract s i j).drop (k - i) = (s.drop k).take (j - k) := by
      rw [extract, List.drop_take, List.drop_drop,
        show i + (k - i) = k from by omega, show j - i - (k - i) = j - k from by omega]
    have heq : ((extract s i j).drop (k - i)).take eW.length = eW := by
      rw [hdt, show eW.length = 5 from rfl, List.take_take,
        show min 5 (j - k) = 5 from by omega, hs]
    simp [heq]

/-- From a frame that the error detector matches and the expected pattern
does not, the combined search finds a match whose head parse comes from the
error branch. -/
theorem findFrom_alt_err {e : Regex} {s : List Char}
    (hnone : findFrom e s = none) (hsome : (findFrom errRe s).isSome = true) :
    ∃ i jc, findFrom (Regex.alt e errRe) s = some (i, jc.1, jc.2) ∧
      jc ∈ parses s errRe (groupCount e) i := by
  have haltEq : ∀ i, i < s.length + 1 →
      parses s (Regex.alt e errRe) 0 i = parses s errRe (groupCount e) i := by
    intro i hi
    show parses s e 0 i ++ parses s errRe (0 + groupCount e) i = _
    rw [findFrom_eq_none hnone i hi, List.nil_append, Nat.zero_add]
  obtain ⟨m, hm⟩ := Option.isSome_iff_exists.mp hsome
  obtain ⟨i0, hi0r, hi0⟩ := List.exists_of_findSome?_eq_some hm
  have hne0 : parses s errRe 0 i0 ≠ [] := by
    intro hnil
    rw [hnil] at hi0
    cases hi0
  have hneg : parses s errRe (groupCount e) i0 ≠ [] := by
    intro hnil
    apply hne0
    have := parses_shift s errRe (groupCount e) 0 i0
    rw [Nat.zero_add] at this
    rw [this] at hnil
    exact List.map_eq_nil_iff.mp hnil
  have hcsome : findFrom (Regex.alt e errRe) s ≠ none := by
    intro hcn
    unfold findFrom at hcn
    rw [List.findSome?_eq_none_iff] at hcn
    have := hcn i0 hi0r
    rcases hp : parses s (Regex.alt e errRe) 0 i0 with _ | ⟨jc, tl⟩
    · rw [haltEq i0 (List.mem_range.mp hi0r)] at hp
      exact hneg hp
    · rw [hp] at this
      cases this
  rcases hc : findFrom (Regex.alt e errRe) s with _ | m'
  · exact absurd hc hcsome
  · obtain ⟨i1, hi1r, hi1⟩ := List.exists_of_findSome?_eq_some hc
    rcases hp : parses s (Regex.alt e errRe) 0 i1 with _ | ⟨jc, tl⟩
    · rw [hp] at hi1
      cases hi1
    · rw [hp] at hi1
      cases hi1
      refine ⟨i1, jc, rfl, ?_⟩
      rw [← haltEq i1 (List.mem_range.mp hi1r), hp]
      exact List.mem_cons_self jc tl

/-- C1: (general part) for every expected pattern and every frame that the
generic error detector matches and the expected pattern does not, the
command/response operation returns an error carrying the raw matched text
(which contains `"ERROR"`) and never a success result.  (Concrete part)
error precedence also holds on a realistic frame when the expected pattern
`ERR` is a strict substring of the error token — and hence matches the frame
too: the error alternative matches one position earlier (at the boundary
character), so the full match is the error token's and `wait4response`
still returns the device error. -/
theorem wait4response_error_precedence :
    (∀ (e : Regex) (s cmd : List Char),
      findFrom e s = none → (findFrom errRe s).isSome = true →
      ∃ m, (wait4response e cmd ⟨true, true, [s]⟩ []).ret = .error (.device m) ∧
        goContains m eW = true ∧
        ∀ r, (wait4response e cmd ⟨true, true, [s]⟩ []).ret ≠ .ok r) ∧
    (wait4response (Regex.str ['E', 'R', 'R']) "AT".data
        ⟨true, true, ["\r\nERROR\r\n".data]⟩ []).ret =
      .error (.device ['\n', 'E', 'R', 'R', 'O', 'R', '\r']) := by
  refine ⟨fun e s cmd hnone hsome => ?_, rfl⟩
  obtain ⟨i, jc, hfind, hmem⟩ := findFrom_alt_err hnone hsome
  obtain ⟨k, hik, hkj, hs5⟩ := errRe_parse_span hmem
  have hcont : goContains (extract s i jc.1) eW = true := goContains_of_span hik hkj hs5
  have hsub : findSubmatch (Regex.alt e errRe) s =
      some (extract s i jc.1 :: (List.range (groupCount (Regex.alt e errRe))).map
        (fun k => capStr s jc.2 (k + 1))) := by
    unfold findSubmatch
    rw [hfind]
    rfl
  have hscan : scanFrames (Regex.alt e errRe) [] [s] =
      some (extract s i jc.1 :: (List.range (groupCount (Regex.alt e errRe))).map
        (fun k => capStr s jc.2 (k + 1))) := by
    unfold scanFrames
    rw [List.nil_append, hsub]
  have hwfrt : (waitForRegexTimeout (Regex.alt e errRe) cmd ⟨true, true, [s]⟩ []).ret =
      .ok (extract s i jc.1 :: (List.range (groupCount (Regex.alt e errRe))).map
        (fun k => capStr s jc.2 (k + 1))) := by
    unfold waitForRegexTimeout
    simp only [hscan, runInits]
    simp
  have hret : (wait4response e cmd ⟨true, true, [s]⟩ []).ret =
      .error (.device (extract s i jc.1)) := by
    unfold wait4response w4rPost
    rw [hwfrt]
    simp only [List.headD_cons, hcont]
    simp
  exact ⟨extract s i jc.1, hret, hcont, fun r hr => by
    rw [hret] at hr
    cases hr⟩

/-- Witness for C1: the frame `\r\nERROR\r\n` matches the error detector but
not the prompt pattern `(> )|(\+CMS ERROR: \d+($|\W))`, and the call returns
a device error carrying text containing `ERROR`. -/
theorem wait4response_error_precedence_witness :
    (findFrom promptRe "\r\nERROR\r\n".data = none ∧
      (findFrom errRe "\r\nERROR\r\n".data).isSome = true) ∧
    (∃ m, (wait4response promptRe "AT".data
        ⟨true, true, ["\r\nERROR\r\n".data]⟩ []).ret = .error (.device m) ∧
      goContains m eW = true ∧
      ∀ r, (wait4response promptRe "AT".data
        ⟨true, true, ["\r\nERROR\r\n".data]⟩ []).ret ≠ .ok r) :=
  ⟨⟨by decide, by decide⟩,
    wait4response_error_precedence.1 promptRe "\r\nERROR\r\n".data "AT".data
      (by decide) (by decide)⟩

end SIM
